import Mathlib

/-!
Verification of the document-store abstraction of the property-assistant
repository (file `app/services/tinydb_wrapper_supabase.py`).

The embedding models:
* JSON-like document values (`Value`) as stored in the JSONB payload column,
  together with the fragment of Python value semantics the wrapper relies on
  (`==`, ordered comparison which raises `TypeError` on incomparable types,
  `str()` stringification, `in` membership);
* the query builder (`Query.matches`, `QueryCondition.invert`) and the
  condition trees (`Condition`);
* the in-memory predicate evaluator `PostgreSQLTable._matches_condition`
  together with `_extract_value`;
* the table state (surrogate-id counter plus rows) and the CRUD operations
  `insert`, `insert_multiple`, `all`, `get`, `search`, `update`, `remove`,
  `truncate`, with the per-call timestamp passed explicitly;
* a small heap model for the caller-visible mutation behaviour of `insert`.

Raising a Python exception is modelled as `Except.error ()`; the Python
`None` (also the JSON null, and the "undefined" result of path resolution)
is the constructor `Value.none`.
-/

/-- JSON-like values held in documents: Python `None`, `bool`, `int`,
`str`, `list`, `dict` (assoc list of string keys, insertion ordered). -/
inductive Value where
  | none : Value
  | bool : Bool → Value
  | int : Int → Value
  | str : String → Value
  | list : List Value → Value
  | dict : List (String × Value) → Value

/-- top-level document payload: a Python dict with string keys. -/
abbrev Doc := List (String × Value)

mutual

/-- structural size of a value, used as recursion fuel for the Python
comparison semantics below (always strictly larger than the nesting depth). -/
def sizeV : Value → Nat
  | Value.none => 1
  | Value.bool _ => 1
  | Value.int _ => 1
  | Value.str _ => 1
  | Value.list xs => 1 + sizeL xs
  | Value.dict kvs => 1 + sizeD kvs

def sizeL : List Value → Nat
  | [] => 0
  | v :: rest => sizeV v + sizeL rest

def sizeD : List (String × Value) → Nat
  | [] => 0
  | kv :: rest => sizeV kv.2 + sizeD rest

end

/-- Python `d[k]` lookup (first matching key; dicts have unique keys). -/
def dlookup : Doc → String → Option Value
  | [], _ => Option.none
  | (k0, v0) :: rest, k => if k0 = k then some v0 else dlookup rest k

/-- Python `d[k] = v`: overwrite in place if the key exists (keeping its
position), else append at the end. -/
def dset : Doc → String → Value → Doc
  | [], k, v => [(k, v)]
  | (k0, v0) :: rest, k, v =>
    if k0 = k then (k0, v) :: rest else (k0, v0) :: dset rest k v

/-- Python `d.update(fields)`: fold `d[k] = v` over the items of `fields`
in order (shallow top-level merge). -/
def dupdate (d : Doc) (fields : Doc) : Doc :=
  fields.foldl (fun acc kv => dset acc kv.1 kv.2) d

/-- numeric value of a Python bool (`True == 1`, `False == 0`). -/
def pyNum (b : Bool) : Int := if b then 1 else 0

/-- fuelled Python `==`: never raises; `bool` and `int` compare numerically
(Python bool is an int subtype); lists compare pointwise; dicts compare as
finite maps (same size and every key of the left found on the right with an
equal value). The fuel is only a termination device; `pyEq` below always
supplies enough of it. -/
def pyEqF : Nat → Value → Value → Bool
  | 0, _, _ => false
  | _ + 1, Value.none, Value.none => true
  | _ + 1, Value.bool a, Value.bool b => a == b
  | _ + 1, Value.bool a, Value.int n => pyNum a == n
  | _ + 1, Value.int m, Value.bool b => m == pyNum b
  | _ + 1, Value.int m, Value.int n => m == n
  | _ + 1, Value.str s, Value.str t => s == t
  | f + 1, Value.list xs, Value.list ys =>
    xs.length == ys.length && (xs.zip ys).all (fun p => pyEqF f p.1 p.2)
  | f + 1, Value.dict a, Value.dict b =>
    a.length == b.length &&
      a.all (fun kv =>
        match dlookup b kv.1 with
        | some v2 => pyEqF f kv.2 v2
        | Option.none => false)
  | _ + 1, _, _ => false

/-- Python `a == b` on document values. -/
def pyEq (a b : Value) : Bool :=
  pyEqF (sizeV a + sizeV b + 1) a b

mutual

/-- fuelled Python `a < b`: numeric across `bool`/`int`, lexicographic on
strings and lists, and a raised `TypeError` (`Except.error`) on every other
type combination — in particular `int` versus `str`. -/
def pyLtF : Nat → Value → Value → Except Unit Bool
  | 0, _, _ => Except.error ()
  | _ + 1, Value.bool a, Value.bool b => Except.ok (decide (pyNum a < pyNum b))
  | _ + 1, Value.bool a, Value.int n => Except.ok (decide (pyNum a < n))
  | _ + 1, Value.int m, Value.bool b => Except.ok (decide (m < pyNum b))
  | _ + 1, Value.int m, Value.int n => Except.ok (decide (m < n))
  | _ + 1, Value.str s, Value.str t => Except.ok (decide (s < t))
  | f + 1, Value.list xs, Value.list ys => pyLtListF f xs ys
  | _ + 1, _, _ => Except.error ()

/-- Python list `<`: find the first pair of elements that are not `==` and
compare them with `<`; a strict prefix is smaller. -/
def pyLtListF : Nat → List Value → List Value → Except Unit Bool
  | _, [], [] => Except.ok false
  | _, [], _ :: _ => Except.ok true
  | _, _ :: _, [] => Except.ok false
  | 0, _ :: _, _ :: _ => Except.error ()
  | f + 1, x :: xs, y :: ys =>
    if pyEqF (f + 1) x y then pyLtListF f xs ys else pyLtF f x y

end

mutual

/-- fuelled Python `a <= b`, same type discipline as `pyLtF`. -/
def pyLeF : Nat → Value → Value → Except Unit Bool
  | 0, _, _ => Except.error ()
  | _ + 1, Value.bool a, Value.bool b => Except.ok (decide (pyNum a ≤ pyNum b))
  | _ + 1, Value.bool a, Value.int n => Except.ok (decide (pyNum a ≤ n))
  | _ + 1, Value.int m, Value.bool b => Except.ok (decide (m ≤ pyNum b))
  | _ + 1, Value.int m, Value.int n => Except.ok (decide (m ≤ n))
  | _ + 1, Value.str s, Value.str t => Except.ok (decide (s ≤ t))
  | f + 1, Value.list xs, Value.list ys => pyLeListF f xs ys
  | _ + 1, _, _ => Except.error ()

/-- Python list `<=`: first non-equal pair decides via `<`; a prefix is
less-or-equal. -/
def pyLeListF : Nat → List Value → List Value → Except Unit Bool
  | _, [], _ => Except.ok true
  | _, _ :: _, [] => Except.ok false
  | 0, _ :: _, _ :: _ => Except.error ()
  | f + 1, x :: xs, y :: ys =>
    if pyEqF (f + 1) x y then pyLeListF f xs ys else pyLtF f x y

end

/-- Python `a < b` on document values. -/
def pyLt (a b : Value) : Except Unit Bool :=
  pyLtF (sizeV a + sizeV b + 1) a b

/-- Python `a <= b` on document values. -/
def pyLe (a b : Value) : Except Unit Bool :=
  pyLeF (sizeV a + sizeV b + 1) a b

/-- Python `is None` identity test. -/
def isNoneV : Value → Bool
  | Value.none => true
  | _ => false

/-- the single-quote character, used by Python `repr` of strings. -/
def sqm : String := String.singleton (Char.ofNat 39)

mutual

/-- Python `repr` of a document value (`str` falls back to this for every
non-string value; containers render their elements with `repr`). -/
def pyRepr : Value → String
  | Value.none => "None"
  | Value.bool b => if b then "True" else "False"
  | Value.int n => toString n
  | Value.str s => sqm ++ s ++ sqm
  | Value.list xs => "[" ++ pyReprL xs ++ "]"
  | Value.dict kvs => "\x7b" ++ pyReprD kvs ++ "\x7d"

def pyReprL : List Value → String
  | [] => ""
  | [v] => pyRepr v
  | v :: rest => pyRepr v ++ ", " ++ pyReprL rest

def pyReprD : List (String × Value) → String
  | [] => ""
  | [kv] => sqm ++ kv.1 ++ sqm ++ ": " ++ pyRepr kv.2
  | kv :: rest => sqm ++ kv.1 ++ sqm ++ ": " ++ pyRepr kv.2 ++ ", " ++ pyReprD rest

end

/-- Python `str()` of a document value. -/
def pyStr : Value → String
  | Value.str s => s
  | v => pyRepr v

/-- Boolean list-level "is a contiguous chunk starting here" test. -/
def chunkAt : List Char → List Char → Bool
  | [], _ => true
  | _ :: _, [] => false
  | a :: as, b :: bs => a == b && chunkAt as bs

/-- Python `s.lower()` (character-wise lowercasing). -/
def strLower (s : String) : String := String.mk (s.data.map Char.toLower)

/-- Python substring containment `needle in hay` for strings. -/
def strContains (hay needle : String) : Bool :=
  go needle.data hay.data
where
  go (needle : List Char) : List Char → Bool
    | [] => needle.isEmpty
    | b :: bs => chunkAt needle (b :: bs) || go needle bs

/-- Python `x in container`: membership via `==` for lists, substring test
for strings, key membership for dicts; a `TypeError` on non-containers and
on unhashable keys, exactly as CPython raises one. -/
def pyIn (x : Value) : Value → Except Unit Bool
  | Value.list ys => Except.ok (ys.any (fun e => pyEq e x))
  | Value.str s =>
    match x with
    | Value.str t => Except.ok (strContains s t)
    | _ => Except.error ()
  | Value.dict kvs =>
    match x with
    | Value.str k => Except.ok (kvs.any (fun kv => kv.1 == k))
    | Value.list _ => Except.error ()
    | Value.dict _ => Except.error ()
    | _ => Except.ok false
  | _ => Except.error ()

/-- Condition trees: `QueryCondition(path, operator, value)` leaves and
`CombinedCondition(left, operator, right)` nodes. -/
inductive Condition where
  | query : List String → String → Value → Condition
  | combined : Condition → String → Condition → Condition

namespace Query

/-- `Query.matches(regex)`: builds a `LIKE` leaf whose operand is the
f-string `%{regex}%`, i.e. the argument wrapped in percent signs. -/
def matchesQ (path : List String) (regex : String) : Condition :=
  Condition.query path "LIKE" (Value.str ("%" ++ regex ++ "%"))

/-- `Query.__eq__`. -/
def eq (path : List String) (other : Value) : Condition :=
  Condition.query path "=" other

/-- `Query.exists()`. -/
def existsQ (path : List String) : Condition :=
  Condition.query path "EXISTS" (Value.bool true)

/-- `Query.one_of(items)`. -/
def one_of (path : List String) (items : List Value) : Condition :=
  Condition.query path "IN" (Value.list items)

end Query

namespace QueryCondition

/-- `QueryCondition.__invert__`: negation prefixes the leaf operator string
with an exclamation mark, without changing path or operand. -/
def invert (path : List String) (operator : String) (value : Value) : Condition :=
  Condition.query path ("!" ++ operator) value

end QueryCondition

namespace PostgreSQLTable

/-- `PostgreSQLTable._extract_value`: walk the path; any missing key or
non-dict intermediate yields Python `None` ("undefined"). -/
def extractValue : Value → List String → Value
  | value, [] => value
  | Value.dict kvs, k :: rest =>
    match dlookup kvs k with
    | some v => extractValue v rest
    | Option.none => Value.none
  | _, _ :: _ => Value.none

/-- the collection a value is treated as by the `ANY`/`ALL` branches:
a list is itself, any other value is a singleton. -/
def asColl : Value → List Value
  | Value.list xs => xs
  | v => [v]

/-- Python `any(v in cv for v in coll)`: sequential, short-circuits at the
first `True`, so a later `TypeError` is not reached. -/
def anyInM : List Value → Value → Except Unit Bool
  | [], _ => Except.ok false
  | x :: rest, cv => do
    let b ← pyIn x cv
    if b then Except.ok true else anyInM rest cv

/-- Python `all(v in cv for v in coll)`: sequential, short-circuits at the
first `False`. -/
def allInM : List Value → Value → Except Unit Bool
  | [], _ => Except.ok true
  | x :: rest, cv => do
    let b ← pyIn x cv
    if b then allInM rest cv else Except.ok false

/-- `PostgreSQLTable._matches_condition`: the if/elif operator dispatch of
the source, including the final `return False` that is reached both for an
unknown leaf operator and for an unknown combining operator. The ordered
comparisons first test `value is not None` and then apply the Python
comparison, which may raise (`Except.error`). A combined condition
evaluates both sides before combining, as the source does. -/
def matchesCondition (doc : Doc) : Condition → Except Unit Bool
  | Condition.query path op v =>
    let value := extractValue (Value.dict doc) path
    if op = "=" then Except.ok (pyEq value v)
    else if op = "!=" then Except.ok (!pyEq value v)
    else if op = "<" then
      if isNoneV value then Except.ok false else pyLt value v
    else if op = "<=" then
      if isNoneV value then Except.ok false else pyLe value v
    else if op = ">" then
      if isNoneV value then Except.ok false else pyLt v value
    else if op = ">=" then
      if isNoneV value then Except.ok false else pyLe v value
    else if op = "LIKE" then
      Except.ok (!isNoneV value && strContains (strLower (pyStr value)) (strLower (pyStr v)))
    else if op = "EXISTS" then Except.ok (!isNoneV value)
    else if op = "IN" then
      Except.ok (match v with
        | Value.list xs => xs.any (fun e => pyEq e value)
        | _ => false)
    else if op = "ANY" then anyInM (asColl value) v
    else if op = "ALL" then allInM (asColl value) v
    else Except.ok false
  | Condition.combined l op r => do
    let leftMatch ← matchesCondition doc l
    let rightMatch ← matchesCondition doc r
    if op = "AND" then Except.ok (leftMatch && rightMatch)
    else if op = "OR" then Except.ok (leftMatch || rightMatch)
    else Except.ok false

/-- table state: the backing relation's rows `(doc_id, data)` kept in
ascending `doc_id` order (how `SELECT ... ORDER BY doc_id` returns them),
plus the `SERIAL` sequence value `nextId` (PostgreSQL serials start at 1). -/
structure TableState where
  nextId : Nat
  rows : List (Nat × Doc)

/-- a freshly created (or truncated) table. -/
def emptyTable : TableState := ⟨1, []⟩

/-- `insert`: stamp `_inserted_at` on a copy of the document, store it under
the next serial id, return the assigned id. `ts` stands for
`datetime.now().isoformat()`. -/
def insert (st : TableState) (document : Doc) (ts : String) : TableState × Nat :=
  let docWithMeta := dset document "_inserted_at" (Value.str ts)
  (⟨st.nextId + 1, st.rows ++ [(st.nextId, docWithMeta)]⟩, st.nextId)

/-- `insert_multiple`: sequential inserts, collecting the assigned ids. -/
def insert_multiple (st : TableState) (documents : List Doc) (ts : String) :
    TableState × List Nat :=
  documents.foldl
    (fun acc d =>
      let r := insert acc.1 d ts
      (r.1, acc.2 ++ [r.2]))
    (st, [])

/-- the read-side conversion: `doc = dict(row[data]); doc[doc_id] = row[doc_id]`. -/
def withDocId (r : Nat × Doc) : Doc :=
  dset r.2 "doc_id" (Value.int r.1)

/-- `all`: full scan in ascending id order, each row with its `doc_id` set. -/
def all (st : TableState) : List Doc :=
  st.rows.map withDocId

/-- `get(doc_id=i)`: point lookup by surrogate id. -/
def getById (st : TableState) (id : Nat) : Option Doc :=
  match st.rows.find? (fun r => r.1 == id) with
  | some r => some (withDocId r)
  | Option.none => Option.none

/-- the filtering loop of `search` over the documents of `all()`; an
evaluator error aborts the whole search. -/
def searchDocs : List Doc → Condition → Except Unit (List Doc)
  | [], _ => Except.ok []
  | d :: rest, c => do
    let b ← matchesCondition d c
    let tail ← searchDocs rest c
    Except.ok (if b then d :: tail else tail)

/-- `search(cond)`: `all()` filtered by the predicate evaluator; a `None`
condition returns `all()` unfiltered. -/
def search (st : TableState) (cond : Option Condition) : Except Unit (List Doc) :=
  match cond with
  | Option.none => Except.ok (all st)
  | some c => searchDocs (all st) c

/-- `get(cond)` without an id: first match of `search`, else the first
record of the table, else `None`. -/
def get (st : TableState) (cond : Option Condition) : Except Unit (Option Doc) :=
  match cond with
  | Option.none => Except.ok (all st).head?
  | some c => (search st (some c)).map List.head?

/-- reading `doc[doc_id]` back off a scan result. -/
def docIdOf (d : Doc) : Nat :=
  match dlookup d "doc_id" with
  | some (Value.int n) => n.toNat
  | _ => 0

/-- target resolution shared by `update` and `remove`: an explicit id list
wins, else the ids of the documents matching the condition, else every id. -/
def targetIds (st : TableState) (cond : Option Condition)
    (docIds : Option (List Nat)) : Except Unit (List Nat) :=
  match docIds with
  | some ids => Except.ok ids
  | Option.none =>
    match cond with
    | some c => (search st (some c)).map (fun docs => docs.map docIdOf)
    | Option.none => Except.ok ((all st).map docIdOf)

/-- one step of `update`: read the row, shallow-merge `fields` into the
payload, stamp `_updated_at`, write back; a missing id is skipped and not
reported as updated. -/
def applyUpdate (fields : Doc) (ts : String) (st : TableState) (id : Nat) :
    TableState × Bool :=
  match st.rows.find? (fun r => r.1 == id) with
  | some r =>
    let newDoc := dset (dupdate r.2 fields) "_updated_at" (Value.str ts)
    (⟨st.nextId, st.rows.map (fun q => if q.1 == id then (q.1, newDoc) else q)⟩, true)
  | Option.none => (st, false)

/-- `update(fields, cond, doc_ids)`: per-target read-modify-write; returns
the ids actually updated. -/
def update (st : TableState) (fields : Doc) (cond : Option Condition)
    (docIds : Option (List Nat)) (ts : String) :
    Except Unit (TableState × List Nat) := do
  let targets ← targetIds st cond docIds
  Except.ok (targets.foldl
    (fun acc id =>
      let r := applyUpdate fields ts acc.1 id
      (r.1, if r.2 then acc.2 ++ [id] else acc.2))
    (st, []))

/-- `remove(cond, doc_ids)`: one bulk `DELETE ... WHERE doc_id IN (...)`;
with a non-empty target list the source sets `removed_ids = target_doc_ids`
whether or not the ids exist. -/
def remove (st : TableState) (cond : Option Condition)
    (docIds : Option (List Nat)) : Except Unit (TableState × List Nat) := do
  let targets ← targetIds st cond docIds
  if targets.isEmpty then Except.ok (st, [])
  else
    Except.ok (⟨st.nextId, st.rows.filter (fun r => !targets.contains r.1)⟩, targets)

/-- `truncate`: `TRUNCATE TABLE ... RESTART IDENTITY` — all rows gone and
the serial sequence reset to its initial value. -/
def truncate (_st : TableState) : TableState := emptyTable

/-- well-formedness maintained by the operations: every stored id was
assigned by a past insert, hence is below the sequence value. -/
def WF (st : TableState) : Prop :=
  ∀ r ∈ st.rows, r.1 < st.nextId

end PostgreSQLTable

namespace PostgreSQLTable

/-- a heap of Python dict objects; a reference is an index. Used to model
the caller-visible mutation behaviour of `insert`/`insert_multiple`. -/
abbrev Heap := List Doc

/-- dereference (total, defaulting to the empty dict off the heap). -/
def hget (h : Heap) (r : Nat) : Doc :=
  (h[r]?).getD []

/-- allocate a fresh object holding `d`, returning its reference. -/
def halloc (h : Heap) (d : Doc) : Heap × Nat :=
  (h ++ [d], h.length)

/-- in-place `obj[k] = v` on the object behind `r`. -/
def hsetKey (h : Heap) (r : Nat) (k : String) (v : Value) : Heap :=
  h.set r (dset (hget h r) k v)

/-- lines 203-205 of the source, at heap level: `doc_with_meta =
document.copy()` allocates a fresh dict with the same contents and
`doc_with_meta[_inserted_at] = ...` mutates only that fresh dict. Returns
the new heap and the reference to the stored payload. -/
def insertAddMeta (h : Heap) (r : Nat) (ts : String) : Heap × Nat :=
  let copied := halloc h (hget h r)
  (hsetKey copied.1 copied.2 "_inserted_at" (Value.str ts), copied.2)

/-- the same per-document step iterated by `insert_multiple`. -/
def insertMultipleMeta (h : Heap) (rs : List Nat) (ts : String) : Heap × List Nat :=
  rs.foldl
    (fun acc r =>
      let s := insertAddMeta acc.1 r ts
      (s.1, acc.2 ++ [s.2]))
    (h, [])

end PostgreSQLTable

/-! Helper lemmas shared by the claim theorems. -/

theorem except_bind_ok {α β ε : Type} (a : α) (f : α → Except ε β) :
    (Except.ok a >>= f) = f a := rfl

theorem except_bind_err {α β ε : Type} (e : ε) (f : α → Except ε β) :
    ((Except.error e : Except ε α) >>= f) = Except.error e := rfl

theorem dlookup_dset_self (d : Doc) (k : String) (v : Value) :
    dlookup (dset d k v) k = some v := by
  induction d with
  | nil => simp [dset, dlookup]
  | cons kv rest ih =>
    by_cases h : kv.1 = k
    · simp [dset, dlookup, h]
    · simp [dset, dlookup, h, ih]

theorem dlookup_dset_ne (d : Doc) (k k2 : String) (v : Value) (h : k2 ≠ k) :
    dlookup (dset d k v) k2 = dlookup d k2 := by
  have h2 : ¬ k = k2 := fun e => h e.symm
  induction d with
  | nil => simp [dset, dlookup, h2]
  | cons kv rest ih =>
    obtain ⟨k0, v0⟩ := kv
    by_cases h0 : k0 = k
    · subst h0
      simp [dset, dlookup, h2]
    · simp only [dset, if_neg h0]
      by_cases h3 : k0 = k2
      · simp [dlookup, h3]
      · simp [dlookup, h3, ih]

theorem dupdate_nil (d : Doc) : dupdate d [] = d := rfl

theorem dupdate_cons (d : Doc) (kv : String × Value) (rest : Doc) :
    dupdate d (kv :: rest) = dupdate (dset d kv.1 kv.2) rest := rfl

theorem dlookup_dupdate_notin (fields : Doc) (d : Doc) (k : String)
    (h : k ∉ fields.map Prod.fst) :
    dlookup (dupdate d fields) k = dlookup d k := by
  induction fields generalizing d with
  | nil => rfl
  | cons kv rest ih =>
    simp only [List.map_cons, List.mem_cons] at h
    push_neg at h
    rw [dupdate_cons, ih _ h.2, dlookup_dset_ne _ _ _ _ h.1]

theorem dlookup_dupdate_mem (fields : Doc) (d : Doc) (k : String)
    (hnd : (fields.map Prod.fst).Nodup) (h : k ∈ fields.map Prod.fst) :
    dlookup (dupdate d fields) k = dlookup fields k := by
  induction fields generalizing d with
  | nil => simp at h
  | cons kv rest ih =>
    simp only [List.map_cons, List.nodup_cons] at hnd
    by_cases he : k = kv.1
    · subst he
      rw [dupdate_cons, dlookup_dupdate_notin _ _ _ hnd.1,
        dlookup_dset_self]
      simp [dlookup]
    · simp only [List.map_cons, List.mem_cons] at h
      rcases h with h | h
      · exact absurd h he
      · rw [dupdate_cons, ih _ hnd.2 h]
        have h4 : ¬ kv.1 = k := fun e => he e.symm
        cases kv
        simp [dlookup, h4]

theorem pyEq_none_left (v : Value) : pyEq Value.none v = isNoneV v := by
  cases v <;> rfl

theorem pyEq_none_right (v : Value) : pyEq v Value.none = isNoneV v := by
  cases v <;> rfl

theorem isNoneV_eq_true_iff (v : Value) : isNoneV v = true ↔ v = Value.none := by
  cases v <;> simp [isNoneV]

/-- the Boolean outcome of the evaluator, with a raised error read as a
non-match; equal to `true` exactly when evaluation succeeds with `True`. -/
def evalOkTrue (d : Doc) (c : Condition) : Bool :=
  match PostgreSQLTable.matchesCondition d c with
  | Except.ok b => b
  | Except.error _ => false

theorem evalOkTrue_eq_true_iff (d : Doc) (c : Condition) :
    evalOkTrue d c = true ↔ PostgreSQLTable.matchesCondition d c = Except.ok true := by
  cases h : PostgreSQLTable.matchesCondition d c with
  | ok b => simp [evalOkTrue, h]
  | error e => simp [evalOkTrue, h]

theorem searchDocs_cons (d : Doc) (rest : List Doc) (c : Condition) :
    PostgreSQLTable.searchDocs (d :: rest) c
      = (PostgreSQLTable.matchesCondition d c >>= fun b =>
          PostgreSQLTable.searchDocs rest c >>= fun tail =>
            Except.ok (if b then d :: tail else tail)) := rfl

theorem searchDocs_ok_eq_filter (c : Condition) :
    ∀ (ds rs : List Doc), PostgreSQLTable.searchDocs ds c = Except.ok rs →
      rs = ds.filter (fun d => evalOkTrue d c) := by
  intro ds
  induction ds with
  | nil =>
    intro rs h
    have h2 : Except.ok ([] : List Doc) = Except.ok rs := h
    injection h2 with h3
    rw [← h3]
    rfl
  | cons d rest ih =>
    intro rs h
    rw [searchDocs_cons] at h
    cases hb : PostgreSQLTable.matchesCondition d c with
    | error e => rw [hb, except_bind_err] at h; exact absurd h (by simp)
    | ok b =>
      rw [hb, except_bind_ok] at h
      cases hm : PostgreSQLTable.searchDocs rest c with
      | error e => rw [hm, except_bind_err] at h; exact absurd h (by simp)
      | ok tail =>
        rw [hm, except_bind_ok] at h
        have htail := ih tail hm
        have hrs : rs = if b then d :: tail else tail := (Except.ok.inj h).symm
        have hev : evalOkTrue d c = b := by simp [evalOkTrue, hb]
        rw [hrs, htail, List.filter_cons, hev]

theorem searchDocs_all_true (c : Condition) :
    ∀ ds : List Doc, (∀ d ∈ ds, PostgreSQLTable.matchesCondition d c = Except.ok true) →
      PostgreSQLTable.searchDocs ds c = Except.ok ds := by
  intro ds
  induction ds with
  | nil => intro _; rfl
  | cons d rest ih =>
    intro h
    rw [searchDocs_cons, h d (by simp), except_bind_ok,
      ih (fun d2 h2 => h d2 (by simp [h2])), except_bind_ok]
    rfl

theorem find?_map_replace (rows : List (Nat × Doc)) (id : Nat) (nd pd : Doc)
    (h : rows.find? (fun r => r.1 == id) = some (id, pd)) :
    (rows.map (fun q => if q.1 == id then (q.1, nd) else q)).find?
        (fun r => r.1 == id) = some (id, nd) := by
  induction rows with
  | nil => simp at h
  | cons a rest ih =>
    rw [List.find?_cons] at h
    rw [List.map_cons, List.find?_cons]
    by_cases ha : (a.1 == id) = true
    · have hid : a.1 = id := by simpa using ha
      rw [if_pos ha]
      simp [ha, hid]
    · have ha2 : (a.1 == id) = false := by simpa using ha
      simp only [ha2] at h
      have hrec := ih h
      rw [if_neg ha]
      simp only [ha2]
      exact hrec

theorem find?_insert_fresh (st : PostgreSQLTable.TableState) (x : Doc)
    (hwf : PostgreSQLTable.WF st) :
    (st.rows ++ [(st.nextId, x)]).find? (fun r => r.1 == st.nextId)
      = some (st.nextId, x) := by
  rw [List.find?_append]
  have hnone : st.rows.find? (fun r => r.1 == st.nextId) = Option.none := by
    rw [List.find?_eq_none]
    intro r hr
    have := hwf r hr
    simp
    omega
  rw [hnone]
  simp [List.find?_cons]

theorem update_unfold (st : PostgreSQLTable.TableState) (fields : Doc)
    (ids : List Nat) (ts : String) :
    PostgreSQLTable.update st fields Option.none (some ids) ts
      = Except.ok (ids.foldl
          (fun acc id =>
            let r := PostgreSQLTable.applyUpdate fields ts acc.1 id
            (r.1, if r.2 then acc.2 ++ [id] else acc.2))
          (st, [])) := rfl

theorem update_foldl_absent (fields : Doc) (ts : String) :
    ∀ (ids : List Nat) (st : PostgreSQLTable.TableState) (acc : List Nat),
      (∀ i ∈ ids, st.rows.find? (fun r => r.1 == i) = Option.none) →
      ids.foldl
          (fun acc id =>
            let r := PostgreSQLTable.applyUpdate fields ts acc.1 id
            (r.1, if r.2 then acc.2 ++ [id] else acc.2))
          (st, acc) = (st, acc) := by
  intro ids
  induction ids with
  | nil => intro st acc _; rfl
  | cons i rest ih =>
    intro st acc h
    have hstep : PostgreSQLTable.applyUpdate fields ts st i = (st, false) := by
      rw [PostgreSQLTable.applyUpdate, h i (by simp)]
    rw [List.foldl_cons]
    simp only [hstep]
    exact ih st acc (fun j hj => h j (by simp [hj]))

theorem insert_multiple_go (ts : String) :
    ∀ (docs : List Doc) (st : PostgreSQLTable.TableState) (ids : List Nat),
      (docs.foldl
          (fun acc d =>
            let r := PostgreSQLTable.insert acc.1 d ts
            (r.1, acc.2 ++ [r.2]))
          (st, ids)).2 = ids ++ List.range' st.nextId docs.length := by
  intro docs
  induction docs with
  | nil => intro st ids; simp
  | cons d rest ih =>
    intro st ids
    have h2 := ih (PostgreSQLTable.insert st d ts).1 (ids ++ [st.nextId])
    have h3 : (PostgreSQLTable.insert st d ts).1.nextId = st.nextId + 1 := rfl
    rw [h3] at h2
    show (List.foldl
        (fun acc d =>
          let r := PostgreSQLTable.insert acc.1 d ts
          (r.1, acc.2 ++ [r.2]))
        ((PostgreSQLTable.insert st d ts).1, ids ++ [st.nextId]) rest).2
      = ids ++ List.range' st.nextId (d :: rest).length
    rw [h2, List.length_cons, List.range'_succ]
    simp

/-! Reduction lemmas exposing each operator branch of the evaluator. -/

theorem mc_eq (doc : Doc) (path : List String) (v : Value) :
    PostgreSQLTable.matchesCondition doc (Condition.query path "=" v)
      = Except.ok (pyEq (PostgreSQLTable.extractValue (Value.dict doc) path) v) := rfl

theorem mc_ne (doc : Doc) (path : List String) (v : Value) :
    PostgreSQLTable.matchesCondition doc (Condition.query path "!=" v)
      = Except.ok (!pyEq (PostgreSQLTable.extractValue (Value.dict doc) path) v) := rfl

theorem mc_lt (doc : Doc) (path : List String) (v : Value) :
    PostgreSQLTable.matchesCondition doc (Condition.query path "<" v)
      = (if isNoneV (PostgreSQLTable.extractValue (Value.dict doc) path)
          then Except.ok false
          else pyLt (PostgreSQLTable.extractValue (Value.dict doc) path) v) := rfl

theorem mc_le (doc : Doc) (path : List String) (v : Value) :
    PostgreSQLTable.matchesCondition doc (Condition.query path "<=" v)
      = (if isNoneV (PostgreSQLTable.extractValue (Value.dict doc) path)
          then Except.ok false
          else pyLe (PostgreSQLTable.extractValue (Value.dict doc) path) v) := rfl

theorem mc_gt (doc : Doc) (path : List String) (v : Value) :
    PostgreSQLTable.matchesCondition doc (Condition.query path ">" v)
      = (if isNoneV (PostgreSQLTable.extractValue (Value.dict doc) path)
          then Except.ok false
          else pyLt v (PostgreSQLTable.extractValue (Value.dict doc) path)) := rfl

theorem mc_ge (doc : Doc) (path : List String) (v : Value) :
    PostgreSQLTable.matchesCondition doc (Condition.query path ">=" v)
      = (if isNoneV (PostgreSQLTable.extractValue (Value.dict doc) path)
          then Except.ok false
          else pyLe v (PostgreSQLTable.extractValue (Value.dict doc) path)) := rfl

theorem mc_like (doc : Doc) (path : List String) (v : Value) :
    PostgreSQLTable.matchesCondition doc (Condition.query path "LIKE" v)
      = Except.ok (!isNoneV (PostgreSQLTable.extractValue (Value.dict doc) path)
          && strContains
              (strLower (pyStr (PostgreSQLTable.extractValue (Value.dict doc) path)))
              (strLower (pyStr v))) := rfl

theorem mc_exists (doc : Doc) (path : List String) (v : Value) :
    PostgreSQLTable.matchesCondition doc (Condition.query path "EXISTS" v)
      = Except.ok (!isNoneV (PostgreSQLTable.extractValue (Value.dict doc) path)) := rfl

theorem mc_in (doc : Doc) (path : List String) (xs : List Value) :
    PostgreSQLTable.matchesCondition doc (Condition.query path "IN" (Value.list xs))
      = Except.ok (xs.any
          (fun e => pyEq e (PostgreSQLTable.extractValue (Value.dict doc) path))) := rfl

theorem mc_any (doc : Doc) (path : List String) (v : Value) :
    PostgreSQLTable.matchesCondition doc (Condition.query path "ANY" v)
      = PostgreSQLTable.anyInM
          (PostgreSQLTable.asColl (PostgreSQLTable.extractValue (Value.dict doc) path)) v := rfl

theorem mc_all (doc : Doc) (path : List String) (v : Value) :
    PostgreSQLTable.matchesCondition doc (Condition.query path "ALL" v)
      = PostgreSQLTable.allInM
          (PostgreSQLTable.asColl (PostgreSQLTable.extractValue (Value.dict doc) path)) v := rfl

/-- C3 counterexample: on the empty document the path resolves to the
undefined value, yet the eq condition whose operand is `None` evaluates to
`True` — refuting the claim that eq is false on an undefined value for
every operand. -/
theorem c3_counterexample :
    PostgreSQLTable.matchesCondition [] (Condition.query ["f"] "=" Value.none)
        = Except.ok true
    ∧ Except.ok true ≠ (Except.ok false : Except Unit Bool) :=
  ⟨rfl, by simp⟩

/-- C3 (amended): when path resolution yields the undefined value, the
operators behave as follows: eq is true exactly when the operand is itself
null, ne is true exactly when the operand is defined, the four ordered
comparisons, substring-match and exists are false for every operand, and
in-set, any-of and all-of over a list operand are true exactly when the
operand list contains a null element. -/
theorem c3_undefined_amended (doc : Doc) (path : List String) (v : Value)
    (hext : PostgreSQLTable.extractValue (Value.dict doc) path = Value.none) :
    PostgreSQLTable.matchesCondition doc (Condition.query path "=" v)
        = Except.ok (isNoneV v)
    ∧ PostgreSQLTable.matchesCondition doc (Condition.query path "!=" v)
        = Except.ok (!isNoneV v)
    ∧ (∀ op ∈ (["<", "<=", ">", ">="] : List String),
        PostgreSQLTable.matchesCondition doc (Condition.query path op v)
          = Except.ok false)
    ∧ PostgreSQLTable.matchesCondition doc (Condition.query path "LIKE" v)
        = Except.ok false
    ∧ PostgreSQLTable.matchesCondition doc (Condition.query path "EXISTS" v)
        = Except.ok false
    ∧ (∀ xs : List Value,
        PostgreSQLTable.matchesCondition doc (Condition.query path "IN" (Value.list xs))
          = Except.ok (xs.any isNoneV))
    ∧ (∀ xs : List Value,
        PostgreSQLTable.matchesCondition doc (Condition.query path "ANY" (Value.list xs))
          = Except.ok (xs.any isNoneV))
    ∧ (∀ xs : List Value,
        PostgreSQLTable.matchesCondition doc (Condition.query path "ALL" (Value.list xs))
          = Except.ok (xs.any isNoneV)) := by
  refine ⟨?_, ?_, ?_, ?_, ?_, ?_, ?_, ?_⟩
  · rw [mc_eq, hext, pyEq_none_left]
  · rw [mc_ne, hext, pyEq_none_left]
  · intro op hop
    simp only [List.mem_cons, List.mem_singleton] at hop
    rcases hop with rfl | rfl | rfl | rfl | hop
    · rw [mc_lt, hext]; simp [isNoneV]
    · rw [mc_le, hext]; simp [isNoneV]
    · rw [mc_gt, hext]; simp [isNoneV]
    · rw [mc_ge, hext]; simp [isNoneV]
    · simp at hop
  · rw [mc_like, hext]; simp [isNoneV]
  · rw [mc_exists, hext]; simp [isNoneV]
  · intro xs
    rw [mc_in, hext]
    simp only [pyEq_none_right]
  · intro xs
    rw [mc_any, hext]
    show (if xs.any (fun e => pyEq e Value.none) then Except.ok true else Except.ok false)
      = Except.ok (xs.any isNoneV)
    simp only [pyEq_none_right]
    cases h5 : xs.any isNoneV <;> simp [h5]
  · intro xs
    rw [mc_all, hext]
    show (if xs.any (fun e => pyEq e Value.none) then Except.ok true else Except.ok false)
      = Except.ok (xs.any isNoneV)
    simp only [pyEq_none_right]
    cases h5 : xs.any isNoneV <;> simp [h5]

/-- C3 witness: the amended statement instantiated at a concrete document
and operand. -/
theorem c3_witness :
    PostgreSQLTable.matchesCondition [("a", Value.int 1)]
        (Condition.query ["b"] "EXISTS" (Value.bool true)) = Except.ok false :=
  (c3_undefined_amended [("a", Value.int 1)] ["b"] (Value.bool true) rfl).2.2.2.2.1

/-- C4 counterexample: a numeric field compared with a string operand via
the lt operator raises a type error instead of evaluating to false. -/
theorem c4_counterexample :
    PostgreSQLTable.matchesCondition [("f", Value.int 2)]
        (Condition.query ["f"] "<" (Value.str "abc")) = Except.error ()
    ∧ (Except.error () : Except Unit Bool) ≠ Except.ok false :=
  ⟨rfl, by simp⟩

/-- C4 (amended): eq and ne leaves are total — they always produce a
Boolean, also on mismatched types — but the four ordered comparisons raise
a type error whenever the resolved value is a defined int and the operand
is a string (and symmetrically), rather than returning false. -/
theorem c4_amended (doc : Doc) (path : List String) (v : Value) :
    (∃ b, PostgreSQLTable.matchesCondition doc (Condition.query path "=" v)
        = Except.ok b)
    ∧ (∃ b, PostgreSQLTable.matchesCondition doc (Condition.query path "!=" v)
        = Except.ok b)
    ∧ (∀ (n : Int) (s : String),
        PostgreSQLTable.extractValue (Value.dict doc) path = Value.int n →
          PostgreSQLTable.matchesCondition doc (Condition.query path "<" (Value.str s))
              = Except.error ()
          ∧ PostgreSQLTable.matchesCondition doc (Condition.query path "<=" (Value.str s))
              = Except.error ()
          ∧ PostgreSQLTable.matchesCondition doc (Condition.query path ">" (Value.str s))
              = Except.error ()
          ∧ PostgreSQLTable.matchesCondition doc (Condition.query path ">=" (Value.str s))
              = Except.error ()) := by
  refine ⟨⟨_, mc_eq doc path v⟩, ⟨_, mc_ne doc path v⟩, ?_⟩
  intro n s hext
  refine ⟨?_, ?_, ?_, ?_⟩
  · rw [mc_lt, hext]; simp [isNoneV]; rfl
  · rw [mc_le, hext]; simp [isNoneV]; rfl
  · rw [mc_gt, hext]; simp [isNoneV]; rfl
  · rw [mc_ge, hext]; simp [isNoneV]; rfl

/-- C4 witness: the amended statement instantiated at a concrete document
whose field holds an int, compared against a string. -/
theorem c4_witness :
    PostgreSQLTable.matchesCondition [("g", Value.int 7)]
        (Condition.query ["g"] "<=" (Value.str "zz")) = Except.error () :=
  ((c4_amended [("g", Value.int 7)] ["g"] (Value.str "zz")).2.2 7 "zz" rfl).2.1

/-- C5 counterexample: negating a gt leaf yields the unknown operator
string, and evaluating it silently returns False — it does not raise. -/
theorem c5_counterexample :
    PostgreSQLTable.matchesCondition [("f", Value.int 1)]
        (QueryCondition.invert ["f"] ">" (Value.int 0)) = Except.ok false
    ∧ (Except.ok false : Except Unit Bool) ≠ Except.error () :=
  ⟨rfl, by simp⟩

/-- C5 (amended): a leaf condition whose operator is none of the eleven
known operator strings — for example any negated operator other than eq —
evaluates to False silently; it is never a raised error. -/
theorem c5_amended (doc : Doc) (path : List String) (op : String) (v : Value)
    (h : op ∉ (["=", "!=", "<", "<=", ">", ">=", "LIKE", "EXISTS", "IN",
        "ANY", "ALL"] : List String)) :
    PostgreSQLTable.matchesCondition doc (Condition.query path op v)
      = Except.ok false := by
  simp only [List.mem_cons, List.mem_singleton, not_or] at h
  obtain ⟨h1, h2, h3, h4, h5, h6, h7, h8, h9, h10, h11⟩ := h
  simp [PostgreSQLTable.matchesCondition, h1, h2, h3, h4, h5, h6, h7, h8,
    h9, h10, h11]

/-- C5 witness: the amended statement at the operator produced by negating
a lt leaf. -/
theorem c5_witness :
    PostgreSQLTable.matchesCondition [] (Condition.query ["x"] "!<" (Value.int 3))
      = Except.ok false :=
  c5_amended [] ["x"] "!<" (Value.int 3) (by decide)

/-- C6 counterexample: the substring condition built from the operand abc
evaluates to False on a field whose value is exactly abc, although the
lowercased operand is a substring of the lowercased field — because the
builder wrapped the operand in percent signs and the evaluator treats them
literally. -/
theorem c6_counterexample :
    PostgreSQLTable.matchesCondition [("f", Value.str "abc")]
        (Query.matchesQ ["f"] "abc") = Except.ok false
    ∧ strContains (strLower "abc") (strLower "abc") = true :=
  ⟨rfl, rfl⟩

/-- C6 (amended): the condition built by the query builder from operand s
evaluates to true exactly when the field value is defined and the
lowercased percent-wrapped operand occurs as a substring of the lowercased
stringification of the field value. -/
theorem c6_amended (doc : Doc) (path : List String) (s : String) :
    PostgreSQLTable.matchesCondition doc (Query.matchesQ path s) = Except.ok true
      ↔ isNoneV (PostgreSQLTable.extractValue (Value.dict doc) path) = false
        ∧ strContains
            (strLower (pyStr (PostgreSQLTable.extractValue (Value.dict doc) path)))
            (strLower ("%" ++ s ++ "%")) = true := by
  have hrw : PostgreSQLTable.matchesCondition doc (Query.matchesQ path s)
      = Except.ok (!isNoneV (PostgreSQLTable.extractValue (Value.dict doc) path)
          && strContains
              (strLower (pyStr (PostgreSQLTable.extractValue (Value.dict doc) path)))
              (strLower ("%" ++ s ++ "%"))) := rfl
  rw [hrw]
  simp [Bool.and_eq_true, Bool.not_eq_true']

/-- C1 counterexample: inserting a document that itself carries a doc_id
key and reading it back yields the assigned id 1 under that key, not the
original pair — so not every top-level key/value pair of d survives. -/
theorem c1_counterexample :
    PostgreSQLTable.getById
        (PostgreSQLTable.insert PostgreSQLTable.emptyTable
          [("doc_id", Value.int 0)] "t0").1 1
      = some [("doc_id", Value.int 1), ("_inserted_at", Value.str "t0")]
    ∧ dlookup [("doc_id", Value.int 1), ("_inserted_at", Value.str "t0")] "doc_id"
        ≠ some (Value.int 0) :=
  ⟨rfl, by simp [dlookup]⟩

/-- C1 (amended): get after insert returns the document extended with the
inserted-at marker and the assigned doc_id, where those two reserved keys
are overwritten if present in d; every top-level key/value pair of d whose
key is neither doc_id nor the marker key is present unchanged. -/
theorem c1_roundtrip_amended (st : PostgreSQLTable.TableState) (d : Doc)
    (ts : String) (hwf : PostgreSQLTable.WF st) :
    PostgreSQLTable.getById (PostgreSQLTable.insert st d ts).1
        (PostgreSQLTable.insert st d ts).2
      = some (dset (dset d "_inserted_at" (Value.str ts)) "doc_id"
          (Value.int st.nextId))
    ∧ (∀ k, k ≠ "doc_id" → k ≠ "_inserted_at" →
        dlookup (dset (dset d "_inserted_at" (Value.str ts)) "doc_id"
            (Value.int st.nextId)) k = dlookup d k) := by
  constructor
  · have hf := find?_insert_fresh st (dset d "_inserted_at" (Value.str ts)) hwf
    show PostgreSQLTable.getById
        ⟨st.nextId + 1, st.rows ++ [(st.nextId, dset d "_inserted_at" (Value.str ts))]⟩
        st.nextId
      = some (dset (dset d "_inserted_at" (Value.str ts)) "doc_id"
          (Value.int st.nextId))
    simp only [PostgreSQLTable.getById]
    rw [hf]
    rfl
  · intro k hk1 hk2
    rw [dlookup_dset_ne _ _ _ _ hk1, dlookup_dset_ne _ _ _ _ hk2]

/-- C1 witness: the amended round trip on a fresh table and a concrete
document. -/
theorem c1_witness :
    PostgreSQLTable.getById
        (PostgreSQLTable.insert PostgreSQLTable.emptyTable [("a", Value.int 5)] "t1").1
        (PostgreSQLTable.insert PostgreSQLTable.emptyTable [("a", Value.int 5)] "t1").2
      = some (dset (dset [("a", Value.int 5)] "_inserted_at" (Value.str "t1")) "doc_id"
          (Value.int PostgreSQLTable.emptyTable.nextId)) :=
  (c1_roundtrip_amended PostgreSQLTable.emptyTable [("a", Value.int 5)] "t1"
    (by intro r hr; simp [PostgreSQLTable.emptyTable] at hr)).1

/-- C2: search of a condition returns exactly the sublist of all() whose
elements the evaluator accepts (hence membership in the result is
equivalent to membership in all() plus a true evaluation), search on an
empty table returns the empty list, and search with a condition every
stored document satisfies returns all(). -/
theorem c2_search_correct :
    (∀ (st : PostgreSQLTable.TableState) (c : Condition) (rs : List Doc),
        PostgreSQLTable.search st (some c) = Except.ok rs →
          rs = (PostgreSQLTable.all st).filter (fun d => evalOkTrue d c)
          ∧ ∀ d : Doc, d ∈ rs ↔ d ∈ PostgreSQLTable.all st
              ∧ PostgreSQLTable.matchesCondition d c = Except.ok true)
    ∧ (∀ c : Option Condition,
        PostgreSQLTable.search PostgreSQLTable.emptyTable c = Except.ok [])
    ∧ (∀ (st : PostgreSQLTable.TableState) (c : Condition),
        (∀ d ∈ PostgreSQLTable.all st,
          PostgreSQLTable.matchesCondition d c = Except.ok true) →
        PostgreSQLTable.search st (some c) = Except.ok (PostgreSQLTable.all st)) := by
  refine ⟨?_, ?_, ?_⟩
  · intro st c rs h
    have hf : rs = (PostgreSQLTable.all st).filter (fun d => evalOkTrue d c) :=
      searchDocs_ok_eq_filter c (PostgreSQLTable.all st) rs h
    refine ⟨hf, ?_⟩
    intro d
    rw [hf]
    simp [List.mem_filter, evalOkTrue_eq_true_iff]
  · intro c
    cases c with
    | none => rfl
    | some c => rfl
  · intro st c h
    exact searchDocs_all_true c (PostgreSQLTable.all st) h

/-- C2 witness: a one-row table whose single document matches the
condition, so search returns all(). -/
theorem c2_witness :
    PostgreSQLTable.search
        ⟨2, [(1, [("status", Value.str "new"), ("_inserted_at", Value.str "t")])]⟩
        (some (Query.eq ["status"] (Value.str "new")))
      = Except.ok (PostgreSQLTable.all
          ⟨2, [(1, [("status", Value.str "new"), ("_inserted_at", Value.str "t")])]⟩) :=
  c2_search_correct.2.2
    ⟨2, [(1, [("status", Value.str "new"), ("_inserted_at", Value.str "t")])]⟩
    (Query.eq ["status"] (Value.str "new"))
    (by
      intro d hd
      simp [PostgreSQLTable.all, PostgreSQLTable.withDocId, dset] at hd
      subst hd
      rfl)

/-- C7 counterexample: a stored payload that already carries an
updated-at marker from an earlier update; a later update that does not
name that key still changes it, so not every unnamed top-level key keeps
its previous value. -/
theorem c7_counterexample :
    PostgreSQLTable.update ⟨2, [(1, [("_updated_at", Value.str "old"), ("b", Value.int 2)])]⟩
        [("a", Value.int 1)] Option.none (some [1]) "new"
      = Except.ok (⟨2, [(1, [("_updated_at", Value.str "new"), ("b", Value.int 2),
          ("a", Value.int 1)])]⟩, [1])
    ∧ ("_updated_at" : String) ≠ "a"
    ∧ some (Value.str "new") ≠ some (Value.str "old") :=
  ⟨rfl, by simp, by simp⟩

/-- C7 (amended): update on a targeted record replaces exactly the keys
named in fields and stamps the updated-at marker; every other top-level
key of the stored payload — the marker key itself excepted — keeps its
previous value, and the keys named in fields (other than the marker key)
take their new values. -/
theorem c7_shallow_merge_amended (st : PostgreSQLTable.TableState) (fields : Doc)
    (id : Nat) (payload : Doc) (ts : String)
    (hfind : st.rows.find? (fun r => r.1 == id) = some (id, payload))
    (hnd : (fields.map Prod.fst).Nodup) :
    (PostgreSQLTable.update st fields Option.none (some [id]) ts).map (fun r => r.2)
        = Except.ok [id]
    ∧ (PostgreSQLTable.update st fields Option.none (some [id]) ts).map
          (fun r => r.1.rows.find? (fun q => q.1 == id))
        = Except.ok (some (id,
            dset (dupdate payload fields) "_updated_at" (Value.str ts)))
    ∧ (∀ k, k ∉ fields.map Prod.fst → k ≠ "_updated_at" →
        dlookup (dset (dupdate payload fields) "_updated_at" (Value.str ts)) k
          = dlookup payload k)
    ∧ (∀ k, k ∈ fields.map Prod.fst → k ≠ "_updated_at" →
        dlookup (dset (dupdate payload fields) "_updated_at" (Value.str ts)) k
          = dlookup fields k) := by
  have happ : PostgreSQLTable.applyUpdate fields ts st id
      = (⟨st.nextId, st.rows.map (fun q => if q.1 == id
            then (q.1, dset (dupdate payload fields) "_updated_at" (Value.str ts))
            else q)⟩, true) := by
    simp only [PostgreSQLTable.applyUpdate, hfind]
  have hupd : PostgreSQLTable.update st fields Option.none (some [id]) ts
      = Except.ok ((PostgreSQLTable.applyUpdate fields ts st id).1,
          if (PostgreSQLTable.applyUpdate fields ts st id).2 then [id] else []) := rfl
  rw [happ] at hupd
  simp only [if_pos] at hupd
  refine ⟨?_, ?_, ?_, ?_⟩
  · rw [hupd]
    rfl
  · rw [hupd]
    show Except.ok ((st.rows.map (fun q => if q.1 == id
        then (q.1, dset (dupdate payload fields) "_updated_at" (Value.str ts))
        else q)).find? (fun q => q.1 == id)) = _
    rw [find?_map_replace st.rows id _ payload hfind]
  · intro k hk1 hk2
    rw [dlookup_dset_ne _ _ _ _ hk2, dlookup_dupdate_notin _ _ _ hk1]
  · intro k hk1 hk2
    rw [dlookup_dset_ne _ _ _ _ hk2, dlookup_dupdate_mem _ _ _ hnd hk1]

/-- C7 witness: the amended statement on a concrete record holding two
keys, updating one of them. -/
theorem c7_witness :
    (PostgreSQLTable.update
        ⟨2, [(1, [("k", Value.str "v0"), ("other", Value.str "x")])]⟩
        [("k", Value.str "v")] Option.none (some [1]) "u").map
          (fun r => r.1.rows.find? (fun q => q.1 == 1))
      = Except.ok (some (1,
          dset (dupdate [("k", Value.str "v0"), ("other", Value.str "x")]
            [("k", Value.str "v")]) "_updated_at" (Value.str "u"))) :=
  (c7_shallow_merge_amended
    ⟨2, [(1, [("k", Value.str "v0"), ("other", Value.str "x")])]⟩
    [("k", Value.str "v")] 1 [("k", Value.str "v0"), ("other", Value.str "x")] "u"
    rfl (by simp)).2.1

/-- C8 counterexample: remove with a non-empty id list whose single id is
absent from the (empty) table returns that id list verbatim, not the empty
list the claim demands. -/
theorem c8_counterexample :
    PostgreSQLTable.remove PostgreSQLTable.emptyTable Option.none (some [1])
      = Except.ok (PostgreSQLTable.emptyTable, [1])
    ∧ ([1] : List Nat) ≠ [] :=
  ⟨rfl, by simp⟩

/-- C8 (amended): update with a condition matching nothing or an id list
of absent ids returns the empty id list and leaves the state unchanged;
remove behaves the same for a condition matching nothing and for an empty
id list, but remove with a non-empty id list returns that list verbatim
even when the ids are absent — the state still does not change. -/
theorem c8_no_match_amended :
    (∀ (st : PostgreSQLTable.TableState) (fields : Doc) (c : Condition) (ts : String),
        PostgreSQLTable.search st (some c) = Except.ok [] →
        PostgreSQLTable.update st fields (some c) Option.none ts = Except.ok (st, []))
    ∧ (∀ (st : PostgreSQLTable.TableState) (fields : Doc) (ids : List Nat) (ts : String),
        (∀ i ∈ ids, st.rows.find? (fun r => r.1 == i) = Option.none) →
        PostgreSQLTable.update st fields Option.none (some ids) ts = Except.ok (st, []))
    ∧ (∀ (st : PostgreSQLTable.TableState) (c : Condition),
        PostgreSQLTable.search st (some c) = Except.ok [] →
        PostgreSQLTable.remove st (some c) Option.none = Except.ok (st, []))
    ∧ (∀ st : PostgreSQLTable.TableState,
        PostgreSQLTable.remove st Option.none (some []) = Except.ok (st, []))
    ∧ (∀ (st : PostgreSQLTable.TableState) (ids : List Nat), ids ≠ [] →
        (∀ i ∈ ids, i ∉ st.rows.map (fun r => r.1)) →
        PostgreSQLTable.remove st Option.none (some ids) = Except.ok (st, ids)) := by
  refine ⟨?_, ?_, ?_, ?_, ?_⟩
  · intro st fields c ts h
    have ht : PostgreSQLTable.targetIds st (some c) Option.none = Except.ok [] := by
      simp only [PostgreSQLTable.targetIds, h]
      rfl
    have hu : PostgreSQLTable.update st fields (some c) Option.none ts
        = (PostgreSQLTable.targetIds st (some c) Option.none >>= fun targets =>
            Except.ok (targets.foldl
              (fun acc i =>
                let r := PostgreSQLTable.applyUpdate fields ts acc.1 i
                (r.1, if r.2 then acc.2 ++ [i] else acc.2)) (st, []))) := rfl
    rw [hu, ht, except_bind_ok]
    rfl
  · intro st fields ids ts h
    rw [update_unfold, update_foldl_absent fields ts ids st [] h]
  · intro st c h
    have ht : PostgreSQLTable.targetIds st (some c) Option.none = Except.ok [] := by
      simp only [PostgreSQLTable.targetIds, h]
      rfl
    have hr : PostgreSQLTable.remove st (some c) Option.none
        = (PostgreSQLTable.targetIds st (some c) Option.none >>= fun targets =>
            if targets.isEmpty then Except.ok (st, [])
            else Except.ok (⟨st.nextId,
              st.rows.filter (fun r => !targets.contains r.1)⟩, targets)) := rfl
    rw [hr, ht, except_bind_ok]
    rfl
  · intro st
    rfl
  · intro st ids hne h
    have hemp : ids.isEmpty = false := by
      cases ids with
      | nil => exact absurd rfl hne
      | cons i rest => rfl
    have hfil : st.rows.filter (fun r => !ids.contains r.1) = st.rows := by
      rw [List.filter_eq_self]
      intro r hr
      have hnot : r.1 ∉ ids := fun hmem => (h r.1 hmem) (List.mem_map.mpr ⟨r, hr, rfl⟩)
      simp [hnot]
    show (if ids.isEmpty then Except.ok (st, [])
        else Except.ok (⟨st.nextId,
          st.rows.filter (fun r => !ids.contains r.1)⟩, ids)) = Except.ok (st, ids)
    rw [hemp, hfil]
    rfl

/-- C8 witness: update addressing a single absent id on the empty table
returns the empty list and changes nothing. -/
theorem c8_witness :
    PostgreSQLTable.update PostgreSQLTable.emptyTable [("a", Value.int 1)]
        Option.none (some [5]) "t" = Except.ok (PostgreSQLTable.emptyTable, []) :=
  c8_no_match_amended.2.1 PostgreSQLTable.emptyTable [("a", Value.int 1)] [5] "t"
    (by intro i hi; rfl)

/-- C9 counterexample: the first insert on the empty table is assigned id
1; after a truncate the next insert is assigned id 1 again — an id is
reused across a truncate, refuting never-reused-including-truncates. -/
theorem c9_counterexample :
    (PostgreSQLTable.insert PostgreSQLTable.emptyTable [("a", Value.int 0)] "t").2 = 1
    ∧ (PostgreSQLTable.insert
        (PostgreSQLTable.truncate
          (PostgreSQLTable.insert PostgreSQLTable.emptyTable [("a", Value.int 0)] "t").1)
        [("a", Value.int 0)] "t").2 = 1 :=
  ⟨rfl, rfl⟩

/-- C9 (amended): each insert returns the current sequence value and bumps
it, so an insert on a well-formed table returns an id not yet stored and
preserves well-formedness; sequential inserts yield strictly increasing,
pairwise-distinct ids; remove never changes the sequence value; but
truncate resets the table to its initial state (sequence value 1), so ids
are reused after a truncate. -/
theorem c9_monotonic_amended :
    (∀ (st : PostgreSQLTable.TableState) (d : Doc) (ts : String),
        (PostgreSQLTable.insert st d ts).2 = st.nextId
        ∧ (PostgreSQLTable.insert st d ts).1.nextId = st.nextId + 1)
    ∧ (∀ (st : PostgreSQLTable.TableState) (d : Doc) (ts : String),
        PostgreSQLTable.WF st →
          (PostgreSQLTable.insert st d ts).2 ∉ st.rows.map (fun r => r.1)
          ∧ PostgreSQLTable.WF (PostgreSQLTable.insert st d ts).1)
    ∧ (∀ (st : PostgreSQLTable.TableState) (docs : List Doc) (ts : String),
        List.Pairwise (· < ·) (PostgreSQLTable.insert_multiple st docs ts).2
        ∧ (PostgreSQLTable.insert_multiple st docs ts).2.Nodup)
    ∧ (∀ (st : PostgreSQLTable.TableState) (c : Option Condition)
          (ids : Option (List Nat)) (st2 : PostgreSQLTable.TableState) (rs : List Nat),
        PostgreSQLTable.remove st c ids = Except.ok (st2, rs) →
          st2.nextId = st.nextId)
    ∧ (∀ st : PostgreSQLTable.TableState,
        PostgreSQLTable.truncate st = PostgreSQLTable.emptyTable) := by
  refine ⟨?_, ?_, ?_, ?_, ?_⟩
  · intro st d ts
    exact ⟨rfl, rfl⟩
  · intro st d ts hwf
    constructor
    · intro hmem
      rcases List.mem_map.mp hmem with ⟨r, hr, he⟩
      have hlt := hwf r hr
      have he2 : r.1 = st.nextId := he
      omega
    · intro r hr
      have hr2 : r ∈ st.rows ++ [(st.nextId, dset d "_inserted_at" (Value.str ts))] := hr
      rw [List.mem_append] at hr2
      show r.1 < st.nextId + 1
      rcases hr2 with hr2 | hr2
      · have := hwf r hr2
        omega
      · simp at hr2
        rw [hr2]
        omega
  · intro st docs ts
    have h2 : (PostgreSQLTable.insert_multiple st docs ts).2
        = [] ++ List.range' st.nextId docs.length := insert_multiple_go ts docs st []
    rw [List.nil_append] at h2
    rw [h2]
    exact ⟨List.pairwise_lt_range' st.nextId docs.length,
      List.nodup_range' st.nextId docs.length⟩
  · intro st c ids st2 rs h
    have h2 : (PostgreSQLTable.targetIds st c ids >>= fun targets =>
        if targets.isEmpty then Except.ok (st, [])
        else Except.ok (⟨st.nextId,
          st.rows.filter (fun r => !targets.contains r.1)⟩, targets))
        = Except.ok (st2, rs) := h
    cases ht : PostgreSQLTable.targetIds st c ids with
    | error e =>
      rw [ht, except_bind_err] at h2
      exact absurd h2 (by simp)
    | ok targets =>
      rw [ht, except_bind_ok] at h2
      by_cases he : targets.isEmpty
      · rw [if_pos he] at h2
        have h3 := Except.ok.inj h2
        have h4 := congrArg (fun p => p.1.nextId) h3
        simpa using h4.symm
      · rw [if_neg he] at h2
        have h3 := Except.ok.inj h2
        have h4 := congrArg (fun p => p.1.nextId) h3
        simpa using h4.symm
  · intro st
    rfl

/-- C9 witness: the freshly assigned id of an insert on the empty table is
not among the stored ids. -/
theorem c9_witness :
    (PostgreSQLTable.insert PostgreSQLTable.emptyTable [("b", Value.int 2)] "t").2
      ∉ PostgreSQLTable.emptyTable.rows.map (fun r => r.1) :=
  ((c9_monotonic_amended.2.1) PostgreSQLTable.emptyTable [("b", Value.int 2)] "t"
    (by intro r hr; simp [PostgreSQLTable.emptyTable] at hr)).1

theorem hget_insertAddMeta_frame (h : PostgreSQLTable.Heap) (r : Nat) (ts : String)
    (j : Nat) (hj : j < h.length) :
    PostgreSQLTable.hget (PostgreSQLTable.insertAddMeta h r ts).1 j
      = PostgreSQLTable.hget h j := by
  simp only [PostgreSQLTable.insertAddMeta, PostgreSQLTable.halloc,
    PostgreSQLTable.hsetKey, PostgreSQLTable.hget]
  rw [List.getElem?_set_ne (by omega), List.getElem?_append_left hj]

theorem hget_insertAddMeta_stored (h : PostgreSQLTable.Heap) (r : Nat) (ts : String) :
    PostgreSQLTable.hget (PostgreSQLTable.insertAddMeta h r ts).1
        (PostgreSQLTable.insertAddMeta h r ts).2
      = dset (PostgreSQLTable.hget h r) "_inserted_at" (Value.str ts) := by
  simp only [PostgreSQLTable.insertAddMeta, PostgreSQLTable.halloc,
    PostgreSQLTable.hsetKey, PostgreSQLTable.hget]
  rw [List.getElem?_concat_length, List.getElem?_set_self (by simp)]
  rfl

theorem insertAddMeta_heap_grows (h : PostgreSQLTable.Heap) (r : Nat) (ts : String) :
    ((PostgreSQLTable.insertAddMeta h r ts).1).length = h.length + 1 := by
  simp [PostgreSQLTable.insertAddMeta, PostgreSQLTable.halloc, PostgreSQLTable.hsetKey]

theorem hget_insertMultipleMeta_frame (ts : String) :
    ∀ (rs : List Nat) (h : PostgreSQLTable.Heap) (acc : List Nat) (j : Nat),
      j < h.length →
      PostgreSQLTable.hget
          ((rs.foldl
            (fun a r =>
              let s := PostgreSQLTable.insertAddMeta a.1 r ts
              (s.1, a.2 ++ [s.2])) (h, acc)).1) j
        = PostgreSQLTable.hget h j := by
  intro rs
  induction rs with
  | nil => intro h acc j _; rfl
  | cons r rest ih =>
    intro h acc j hj
    show PostgreSQLTable.hget
        ((rest.foldl
          (fun a r =>
            let s := PostgreSQLTable.insertAddMeta a.1 r ts
            (s.1, a.2 ++ [s.2]))
          ((PostgreSQLTable.insertAddMeta h r ts).1,
            acc ++ [(PostgreSQLTable.insertAddMeta h r ts).2])).1) j
      = PostgreSQLTable.hget h j
    rw [ih (PostgreSQLTable.insertAddMeta h r ts).1 _ j
        (by rw [insertAddMeta_heap_grows]; omega),
      hget_insertAddMeta_frame h r ts j hj]

/-- C10: the inserted-at marker is stamped on a fresh copy, so neither
insert nor insert_multiple mutates a caller document: every heap object
that existed before the call holds the same contents afterwards, while the
stored payload is the copy extended with the marker. -/
theorem c10_no_caller_mutation :
    (∀ (h : PostgreSQLTable.Heap) (r : Nat) (ts : String) (j : Nat),
        j < h.length →
        PostgreSQLTable.hget (PostgreSQLTable.insertAddMeta h r ts).1 j
          = PostgreSQLTable.hget h j)
    ∧ (∀ (h : PostgreSQLTable.Heap) (r : Nat) (ts : String),
        PostgreSQLTable.hget (PostgreSQLTable.insertAddMeta h r ts).1
            (PostgreSQLTable.insertAddMeta h r ts).2
          = dset (PostgreSQLTable.hget h r) "_inserted_at" (Value.str ts))
    ∧ (∀ (hp : PostgreSQLTable.Heap) (rs : List Nat) (ts : String) (j : Nat),
        j < hp.length →
        PostgreSQLTable.hget (PostgreSQLTable.insertMultipleMeta hp rs ts).1 j
          = PostgreSQLTable.hget hp j) :=
  ⟨hget_insertAddMeta_frame, hget_insertAddMeta_stored,
    fun hp rs ts j hj => hget_insertMultipleMeta_frame ts rs hp [] j hj⟩

/-- C10 witness: a one-object heap; after the insert metadata step the
caller object at reference 0 is unchanged. -/
theorem c10_witness :
    PostgreSQLTable.hget
        (PostgreSQLTable.insertAddMeta [[("a", Value.int 1)]] 0 "t").1 0
      = PostgreSQLTable.hget [[("a", Value.int 1)]] 0 :=
  c10_no_caller_mutation.1 [[("a", Value.int 1)]] 0 "t" 0 (by decide)
